import Mathlib

/-!
# Verification of the tokentracer-proxy routing, translation and rate-limiting core

Shallow embedding of the Go sources of `andyantrim/tokentracer-proxy`:

* `pkg/types` — wire structures (`OpenAIRequest`, `AnthropicRequest`, ...);
* `pkg/translator/translator.go` — `OpenAIToAnthropicRequest`,
  `AnthropicToOpenAIResponse`;
* `pkg/handler` (`ProxyHandler`, `estimateTokens`) — the routing
  orchestrator with its bounded fallback loop;
* `pkg/ratelimit/middleware.go` — `getUserLimits`, `resolveLimit`,
  `RateLimitMiddleware`, `getDailyCount`, `isMinuteLimitExceeded`;
* `pkg/management` (`UpsertModelAlias`) — alias upsert normalization.

Go `int` is modelled as `Int`; in-memory maps as association lists;
fallible externals (database reads, upstream sends) as `Option`/`Except`
inputs.  The per-request fallback loop is written as structural recursion
on the remaining iteration count (`maxDepth - i`), which makes its
termination a theorem of the embedding.
-/

namespace TokenTracer

/-! ## Wire types (pkg/types) -/

/-- `types.OpenAIMessage`: one role-tagged chat message. -/
structure OpenAIMessage where
  role : String
  content : String
  deriving Repr, DecidableEq

/-- `types.OpenAIRequest`: the canonical inbound request. -/
structure OpenAIRequest where
  model : String
  messages : List OpenAIMessage
  stream : Bool
  maxTokens : Int
  deriving Repr, DecidableEq

/-- `types.OpenAIUsage`. -/
structure OpenAIUsage where
  promptTokens : Int
  completionTokens : Int
  totalTokens : Int
  deriving Repr, DecidableEq

/-- `types.OpenAIChoice`. -/
structure OpenAIChoice where
  index : Int
  message : OpenAIMessage
  finishReason : String
  deriving Repr, DecidableEq

/-- `types.OpenAIResponse`: the canonical outbound response. -/
structure OpenAIResponse where
  id : String
  object : String
  created : Int
  model : String
  choices : List OpenAIChoice
  usage : OpenAIUsage
  deriving Repr, DecidableEq

/-- `types.AnthropicMessage`. -/
structure AnthropicMessage where
  role : String
  content : String
  deriving Repr, DecidableEq

/-- `types.AnthropicRequest`: the Anthropic-native request. -/
structure AnthropicRequest where
  model : String
  messages : List AnthropicMessage
  system : String
  maxTokens : Int
  stream : Bool
  deriving Repr, DecidableEq

/-- `types.AnthropicBlock`: one content segment of an upstream response. -/
structure AnthropicBlock where
  type : String
  text : String
  deriving Repr, DecidableEq

/-- `types.AnthropicUsage`. -/
structure AnthropicUsage where
  inputTokens : Int
  outputTokens : Int
  deriving Repr, DecidableEq

/-- `types.AnthropicResponse`: the Anthropic-native response. -/
structure AnthropicResponse where
  id : String
  type : String
  role : String
  model : String
  content : List AnthropicBlock
  stopReason : String
  usage : AnthropicUsage
  deriving Repr, DecidableEq

/-! ## Wire translator (pkg/translator/translator.go) -/

/-- `translator.DefaultMaxTokens`. -/
def DefaultMaxTokens : Int := 4096

/-- `translator.ModelMap`: OpenAI model names mapped to Anthropic ones. -/
def ModelMap : List (String × String) :=
  [("gpt-4", "claude-3-opus-20240229"),
   ("gpt-4-turbo", "claude-3-opus-20240229"),
   ("gpt-4o", "claude-3-5-sonnet-20240620"),
   ("gpt-3.5-turbo", "claude-3-haiku-20240307")]

/-- Map lookup, mirroring Go's `mapped, ok := ModelMap[req.Model]` followed
by fallback to the requested name. -/
def mapModel (m : String) : String :=
  match ModelMap.find? (fun p => p.1 == m) with
  | some p => p.2
  | none => m

/-- Go's `strings.TrimSpace` on the character list: drop leading and
trailing whitespace. -/
def trimSpaceData (l : List Char) : List Char :=
  ((l.dropWhile Char.isWhitespace).reverse.dropWhile Char.isWhitespace).reverse

/-- Go's `strings.TrimSpace` on strings. -/
def trimSpace (s : String) : String :=
  ⟨trimSpaceData s.data⟩

/-- The body of the message loop of `OpenAIToAnthropicRequest`: a system
message is appended (with a `"\n"` terminator) to the accumulated system
prompt, any other message is appended to the outgoing message list. -/
def convertStep (acc : String × List AnthropicMessage) (msg : OpenAIMessage) :
    String × List AnthropicMessage :=
  if msg.role = "system" then
    (acc.1 ++ msg.content ++ "\n", acc.2)
  else
    (acc.1, acc.2 ++ [⟨msg.role, msg.content⟩])

/-- `translator.OpenAIToAnthropicRequest` (the error return is always nil
in the source, so the embedding is total). -/
def OpenAIToAnthropicRequest (req : OpenAIRequest) : AnthropicRequest :=
  let conv := req.messages.foldl convertStep ("", [])
  { model := mapModel req.model
    messages := conv.2
    system := trimSpace conv.1
    maxTokens := if req.maxTokens > 0 then req.maxTokens else DefaultMaxTokens
    stream := req.stream }

/-- The text-extraction loop of `AnthropicToOpenAIResponse`: concatenate
the text of every `"text"`-typed block, in order. -/
def extractText (blocks : List AnthropicBlock) : String :=
  blocks.foldl (fun acc b => if b.type = "text" then acc ++ b.text else acc) ""

/-- `translator.AnthropicToOpenAIResponse` (error return always nil). -/
def AnthropicToOpenAIResponse (resp : AnthropicResponse) : OpenAIResponse :=
  { id := resp.id
    object := "chat.completion"
    created := 0
    model := resp.model
    choices :=
      [{ index := 0
         message := { role := "assistant", content := extractText resp.content }
         finishReason := resp.stopReason }]
    usage :=
      { promptTokens := resp.usage.inputTokens
        completionTokens := resp.usage.outputTokens
        totalTokens := resp.usage.inputTokens + resp.usage.outputTokens } }

/-! ## Routing orchestrator (pkg/handler, `ProxyHandler` and `estimateTokens`) -/

/-- `db.ModelAlias` as read by `Repo.GetModelAlias`: the user-scoped
routing rule. -/
structure ModelAlias where
  targetModel : String
  providerKeyID : Int
  fallbackAliasID : Option Int
  useLightModel : Bool
  lightModelThreshold : Int
  lightModel : Option String
  deriving Repr, DecidableEq

/-- `db.RequestLog`: the usage-log row handed to the asynchronous insert
on success. -/
structure RequestLog where
  userID : Int
  aliasUsed : String
  providerUsed : String
  modelUsed : String
  inputTokens : Int
  outputTokens : Int
  statusCode : Int
  deriving Repr, DecidableEq

/-- `handler.estimateTokens`: total content length across messages,
divided by 4, 0 for empty input and at least 1 otherwise.  Go's
`len(m.Content)` counts the bytes of the content; the embedding models a
content as its character sequence and uses its length. -/
def estimateTokens (messages : List OpenAIMessage) : Nat :=
  let totalChars := messages.foldl (fun acc m => acc + m.content.length) 0
  if totalChars = 0 then 0
  else if totalChars / 4 = 0 then 1
  else totalChars / 4

/-- The light-model branch of `ProxyHandler`: the model sent upstream for
one attempt.  `reqCopy.Model` starts as the rule's target model and is
replaced by the rule's light model exactly when the rule enables the
optimization, carries a non-empty light model, and the token estimate is
strictly below the threshold. -/
def attemptModel (rule : ModelAlias) (messages : List OpenAIMessage) : String :=
  match rule.lightModel with
  | some lm =>
      if rule.useLightModel ∧ lm ≠ "" ∧ (estimateTokens messages : Int) < rule.lightModelThreshold
      then lm
      else rule.targetModel
  | none => rule.targetModel

/-- The provider-type switch of `ProxyHandler`: the three recognized
provider factories. -/
def supportedProvider (t : String) : Bool :=
  t == "anthropic" || t == "openai" || t == "gemini"

/-- The external collaborators of one `ProxyHandler` call, read-only for
the duration of the request: the repository lookups and the upstream send
of the provider selected by (provider type, key id).  A `none` from `send`
is the `err != nil` branch of `prov.Send`. -/
structure ProxyEnv where
  getModelAlias : String → Option ModelAlias
  getProviderKey : Int → Option String
  getModelAliasByID : Int → Option String
  send : String → Int → OpenAIRequest → Option OpenAIResponse

/-- The caller-visible outcomes of `ProxyHandler` after the body has been
decoded (each corresponds to one `http.Error`/success write in the
source). -/
inductive ProxyOutcome where
  /-- 404 `"Unknown model alias"`. -/
  | aliasNotFound (name : String)
  /-- 500 `"Provider configuration not found"`. -/
  | providerConfigMissing
  /-- 400 `"Unsupported provider"`. -/
  | unsupportedProvider (t : String)
  /-- 200 with the upstream response, plus the detached usage-log row. -/
  | success (resp : OpenAIResponse) (logRow : RequestLog)
  /-- 502 `"Provider request failed"` (failure with no usable fallback). -/
  | providerRequestFailed
  /-- 502 `"All fallbacks failed"` (loop exhausted with `lastErr != nil`). -/
  | allFallbacksFailed
  /-- 508 `"Max fallback depth reached"` (loop exhausted, `lastErr == nil`). -/
  | maxFallbackDepthReached
  deriving Repr, DecidableEq

/-- The `for i := 0; i < maxDepth; i++` loop of `ProxyHandler`, as
structural recursion on the remaining iterations.  `hasLastErr` tracks
`lastErr != nil`; `attempts` counts the upstream `prov.Send` calls made so
far.  Each iteration either terminates or tail-calls with one unit of
fuel less, so the loop provably terminates. -/
def proxyLoop (env : ProxyEnv) (userID : Int) (req : OpenAIRequest) :
    Nat → String → Bool → Nat → ProxyOutcome × Nat
  | 0, _, hasLastErr, attempts =>
      if hasLastErr then (.allFallbacksFailed, attempts)
      else (.maxFallbackDepthReached, attempts)
  | fuel + 1, currentModel, _hasLastErr, attempts =>
      match env.getModelAlias currentModel with
      | none => (.aliasNotFound currentModel, attempts)
      | some rule =>
        match env.getProviderKey rule.providerKeyID with
        | none => (.providerConfigMissing, attempts)
        | some providerType =>
          if supportedProvider providerType then
            let reqCopy := { req with model := attemptModel rule req.messages }
            match env.send providerType rule.providerKeyID reqCopy with
            | some resp =>
                (.success resp
                  { userID := userID
                    aliasUsed := currentModel
                    providerUsed := providerType
                    modelUsed := reqCopy.model
                    inputTokens := resp.usage.promptTokens
                    outputTokens := resp.usage.completionTokens
                    statusCode := 200 },
                 attempts + 1)
            | none =>
                match rule.fallbackAliasID with
                | some fbid =>
                    match env.getModelAliasByID fbid with
                    | some fbName =>
                        proxyLoop env userID req fuel fbName true (attempts + 1)
                    | none => (.providerRequestFailed, attempts + 1)
                | none => (.providerRequestFailed, attempts + 1)
          else (.unsupportedProvider providerType, attempts)

/-- `handler.ProxyHandler` after body decoding: run the fallback loop with
`maxDepth = 2`, starting from the request's model name, with `lastErr`
nil and no attempts made.  Returns the outcome and the number of upstream
send attempts. -/
def proxyHandler (env : ProxyEnv) (userID : Int) (req : OpenAIRequest) :
    ProxyOutcome × Nat :=
  proxyLoop env userID req 2 req.model false 0

/-! ## Rate limiter (pkg/ratelimit/middleware.go) -/

/-- `ratelimit.resolveLimit`: a user value of 0 defers to the server
default; the final value 0 means unlimited. -/
def resolveLimit (userValue serverDefault : Int) : Int :=
  if userValue ≠ 0 then userValue else serverDefault

/-- `ratelimit.getUserLimits`, abstracted over time and shared state: a
cache entry younger than the TTL is `cacheFresh = some (minute, daily)`;
otherwise the database row is consulted.  On a database error the server
defaults are returned directly; otherwise each axis is resolved
independently through `resolveLimit`.  (The cache repopulation, which does
not affect the returned limits, is the state left implicit here.) -/
def getUserLimits (defaultMinuteLimit defaultDailyLimit : Int)
    (cacheFresh : Option (Int × Int)) (dbRow : Except Unit (Int × Int)) :
    Int × Int :=
  match cacheFresh with
  | some cached =>
      (resolveLimit cached.1 defaultMinuteLimit, resolveLimit cached.2 defaultDailyLimit)
  | none =>
      match dbRow with
      | .error _ => (defaultMinuteLimit, defaultDailyLimit)
      | .ok db =>
          (resolveLimit db.1 defaultMinuteLimit, resolveLimit db.2 defaultDailyLimit)

/-- The in-memory minute-bucket map `minuteBuckets`, as an association
list from string keys (`"<userID>:<minute>"`) to counts. -/
def MinuteBuckets := List (String × Nat)

/-- Go map read `minuteBuckets[key]`: 0 when the key is absent. -/
def lookupCount (st : MinuteBuckets) (key : String) : Nat :=
  match List.find? (fun p => p.1 == key) st with
  | some p => p.2
  | none => 0

/-- Go map write `minuteBuckets[key] = v`: update in place, or prepend a
fresh binding. -/
def setCount (st : MinuteBuckets) (key : String) (v : Nat) : MinuteBuckets :=
  match st with
  | [] => [(key, v)]
  | p :: rest =>
      if p.1 == key then (key, v) :: rest
      else p :: setCount rest key v

/-- Go's `strings.HasSuffix`. -/
def hasSuffix (s suffix : String) : Bool :=
  List.isSuffixOf suffix.data s.data

/-- The bucket key `fmt.Sprintf("%d:%s", userID, minute)`. -/
def minuteKey (userID : Int) (minute : String) : String :=
  toString userID ++ ":" ++ minute

/-- `ratelimit.isMinuteLimitExceeded`, with the wall-clock minute string
passed explicitly.  Under the lock: read the count for the
(user, minute) key; at or above the limit reject without writing;
otherwise increment and, if the map has grown past 10,000 entries, evict
every key that does not end in `":" ++ currentMinute`.  Returns the
decision (`true` = rejected) and the updated map. -/
def isMinuteLimitExceeded (st : MinuteBuckets) (userID : Int) (limit : Int)
    (minute : String) : Bool × MinuteBuckets :=
  let key := minuteKey userID minute
  let count := lookupCount st key
  if (count : Int) ≥ limit then (true, st)
  else
    let st1 := setCount st key (count + 1)
    let st2 :=
      if st1.length > 10000 then
        st1.filter (fun p => hasSuffix p.1 (":" ++ minute))
      else st1
    (false, st2)

/-- The admission decisions of `RateLimitMiddleware` for an authenticated
user (each corresponds to one `http.Error`, or to calling the next
handler). -/
inductive RateLimitDecision where
  /-- 500 `"Rate limit check failed"`: the daily-count read errored. -/
  | rateLimitCheckFailed
  /-- 429 `"Daily rate limit exceeded."`. -/
  | dailyLimitExceeded
  /-- 429 `"Per-minute rate limit exceeded."`. -/
  | minuteLimitExceeded
  /-- The request is admitted to the next handler. -/
  | admitted
  deriving Repr, DecidableEq

/-- The body of `RateLimitMiddleware` after the limits are resolved:
daily check first (skipped unless the daily limit is positive; a count
read error is a hard rejection; a count at or above the limit is a
rejection), then the per-minute check (skipped unless the minute limit is
positive).  `dailyCount` is the result of `getDailyCount`.  Returns the
decision and the updated minute-bucket map. -/
def rateLimitCheck (minuteLimit dailyLimit : Int)
    (dailyCount : Except Unit Int) (st : MinuteBuckets) (userID : Int)
    (minute : String) : RateLimitDecision × MinuteBuckets :=
  let minuteStep : RateLimitDecision × MinuteBuckets :=
    if minuteLimit > 0 then
      let r := isMinuteLimitExceeded st userID minuteLimit minute
      if r.1 then (.minuteLimitExceeded, r.2) else (.admitted, r.2)
    else (.admitted, st)
  if dailyLimit > 0 then
    match dailyCount with
    | .error _ => (.rateLimitCheckFailed, st)
    | .ok c =>
        if c ≥ dailyLimit then (.dailyLimitExceeded, st)
        else minuteStep
  else minuteStep

/-- `RateLimitMiddleware` composed with `getUserLimits`: resolve the
effective limits, then run the daily and minute checks. -/
def rateLimitMiddleware (defaultMinuteLimit defaultDailyLimit : Int)
    (cacheFresh : Option (Int × Int)) (dbRow : Except Unit (Int × Int))
    (dailyCount : Except Unit Int) (st : MinuteBuckets) (userID : Int)
    (minute : String) : RateLimitDecision × MinuteBuckets :=
  let limits := getUserLimits defaultMinuteLimit defaultDailyLimit cacheFresh dbRow
  rateLimitCheck limits.1 limits.2 dailyCount st userID minute

/-! ## Alias upsert (pkg/management, `UpsertModelAlias`) -/

/-- `management.ModelAliasRequest`: the decoded upsert body. -/
structure ModelAliasRequest where
  id : Int
  alias2 : String
  targetModel : String
  providerKeyID : Int
  fallbackAliasID : Option Int
  useLightModel : Bool
  lightModelThreshold : Int
  lightModel : Option String
  deriving Repr, DecidableEq

/-- What `UpsertModelAlias` does with a decoded request: reject it, or
hand the (normalized) fields to `db.Repo.UpsertModelAlias`. -/
inductive UpsertOutcome where
  /-- 400 with the given message. -/
  | badRequest (msg : String)
  /-- The row handed to the repository upsert. -/
  | persist (userID : Int) (alias2 targetModel : String) (providerKeyID : Int)
      (fallbackAliasID : Option Int) (useLightModel : Bool)
      (lightModelThreshold : Int) (lightModel : Option String)
  deriving Repr, DecidableEq

/-- `management.UpsertModelAlias` after body decoding: validate the
required fields, then normalize the optional ones — a supplied fallback
alias id ≤ 0 becomes null, a supplied empty light-model string becomes
null — and persist. -/
def upsertModelAlias (userID : Int) (req : ModelAliasRequest) : UpsertOutcome :=
  if req.alias2 = "" then .badRequest "Alias name is required"
  else if req.targetModel = "" then .badRequest "Target model is required"
  else if req.providerKeyID ≤ 0 then .badRequest "A valid provider key is required"
  else
    let fb : Option Int :=
      match req.fallbackAliasID with
      | some fid => if fid ≤ 0 then none else some fid
      | none => none
    let lm : Option String :=
      match req.lightModel with
      | some s => if s = "" then none else some s
      | none => none
    .persist userID req.alias2 req.targetModel req.providerKeyID fb
      req.useLightModel req.lightModelThreshold lm

/-- The fallback reference of the persisted row, when the request was
persisted at all. -/
def persistedFallback : UpsertOutcome → Option (Option Int)
  | .badRequest _ => none
  | .persist _ _ _ _ fb _ _ _ => some fb

/-- The light model of the persisted row, when the request was persisted
at all. -/
def persistedLightModel : UpsertOutcome → Option (Option String)
  | .badRequest _ => none
  | .persist _ _ _ _ _ _ _ lm => some lm

/-! ## Spec-side characterizations

Definitions following the specification's wording, used to compare the
embedded code against the spec's description of it. -/

/-- Spec wording: the contents of the system-role messages, in order. -/
def systemContents (msgs : List OpenAIMessage) : List String :=
  (msgs.filter (fun msg => msg.role == "system")).map (fun msg => msg.content)

/-- Spec wording: the non-system messages, in their original order. -/
def nonSystemAnthropic (msgs : List OpenAIMessage) : List AnthropicMessage :=
  (msgs.filter (fun msg => msg.role != "system")).map
    (fun msg => ⟨msg.role, msg.content⟩)

/-- Spec wording: newline-separated concatenation of a list of strings. -/
def joinNewline : List String → String
  | [] => ""
  | [c] => c
  | c :: rest => c ++ "\n" ++ joinNewline rest

/-- Spec wording (claim C5): trimmed of *trailing* whitespace only. -/
def trimTrailing (s : String) : String :=
  ⟨(s.data.reverse.dropWhile Char.isWhitespace).reverse⟩

/-- Spec wording (claim C5): the system field as the trailing-trimmed
newline-separated concatenation of the system-role contents. -/
def specSystemFieldTrailing (msgs : List OpenAIMessage) : String :=
  trimTrailing (joinNewline (systemContents msgs))

/-- Spec wording: in-order concatenation of a list of strings. -/
def concatAll : List String → String
  | [] => ""
  | s :: rest => s ++ concatAll rest

/-- Spec wording (claim C6): the concatenation of the text-typed content
segments, in order. -/
def specTextContent (blocks : List AnthropicBlock) : String :=
  concatAll ((blocks.filter (fun b => b.type == "text")).map (fun b => b.text))

/-- Spec wording (claim C4): the total character count across all message
contents. -/
def totalContentChars (msgs : List OpenAIMessage) : Nat :=
  (msgs.map (fun msg => msg.content.length)).sum

/-- Spec wording (claim C4): light-model substitution applies iff the
alias enables it, specifies a non-empty light model, and the token
estimate is strictly below the threshold. -/
def lightModelSpecCond (rule : ModelAlias) (messages : List OpenAIMessage) : Bool :=
  rule.useLightModel &&
    (match rule.lightModel with
     | some lm =>
         lm != "" && decide ((estimateTokens messages : Int) < rule.lightModelThreshold)
     | none => false)

/-- The system prompt accumulated by the message loop: each system
content followed by a `"\n"` terminator. -/
def sysConcat : List String → String
  | [] => ""
  | c :: rest => c ++ "\n" ++ sysConcat rest

/-! ## Concrete scenario inputs -/

/-- The concrete request refuting the trailing-only-trim reading of C5:
one system message whose content has a leading space. -/
def exReqC5 : OpenAIRequest :=
  ⟨"m", [⟨"system", " S"⟩, ⟨"user", "U"⟩], false, 0⟩

/-- An alias whose fallback reference points back to itself by id: a
chain where every alias points to a fallback indefinitely. -/
def exRule : ModelAlias :=
  ⟨"model-a", 1, some 1, false, 0, none⟩

/-- An environment in which every alias name resolves to `exRule`, the
provider key resolves to a supported provider, the fallback id resolves
to the alias name `"alias-a"`, and every upstream send fails. -/
def exEnvC1 : ProxyEnv :=
  { getModelAlias := fun _ => some exRule
    getProviderKey := fun _ => some "anthropic"
    getModelAliasByID := fun _ => some "alias-a"
    send := fun _ _ _ => none }

/-- A request addressed to the self-falling-back alias. -/
def exReqC1 : OpenAIRequest :=
  ⟨"alias-a", [⟨"user", "hi"⟩], false, 0⟩

/-- The minute-counter state after `n` consecutive requests from the same
user in the same minute, starting from the given bucket map: one
`isMinuteLimitExceeded` admission check per request. -/
def iterateMinute (u : Int) (limit : Int) (m : String) : Nat → MinuteBuckets → MinuteBuckets
  | 0, st => st
  | n + 1, st => (isMinuteLimitExceeded (iterateMinute u limit m n st) u limit m).2

/-! ## Helper lemmas -/

/-- The attempts counter of the fallback loop grows by at most the fuel. -/
theorem proxyLoop_attempts_le (env : ProxyEnv) (u : Int) (req : OpenAIRequest) :
    ∀ (fuel : Nat) (m : String) (b : Bool) (a : Nat),
    (proxyLoop env u req fuel m b a).2 ≤ a + fuel := by
  intro fuel
  induction fuel with
  | zero =>
      intro m b a
      simp only [proxyLoop]
      split <;> simp
  | succ n ih =>
      intro m b a
      simp only [proxyLoop]
      repeat' split
      all_goals first
        | exact Nat.le_trans (ih _ _ _) (by omega)
        | (simp only [Prod.snd]; omega)

/-- Claim C2: for every environment, user and request, the routing
orchestrator performs at most 2 upstream send attempts; it always
terminates because the fallback loop is structural recursion on the
remaining depth, bounded by `maxDepth = 2` regardless of how the aliases'
fallback references are linked. -/
theorem C2_at_most_two_attempts (env : ProxyEnv) (u : Int) (req : OpenAIRequest) :
    (proxyHandler env u req).2 ≤ 2 := by
  have h := proxyLoop_attempts_le env u req 2 req.model false 0
  simpa [proxyHandler] using h

/-- Claim C9: translating to the Anthropic wire form replaces a zero (or
absent, which decodes to zero) max-token bound by the default 4096, and
passes a positive bound through unchanged. -/
theorem C9_max_tokens_default (req : OpenAIRequest) :
    (req.maxTokens = 0 → (OpenAIToAnthropicRequest req).maxTokens = 4096)
    ∧ (req.maxTokens > 0 → (OpenAIToAnthropicRequest req).maxTokens = req.maxTokens) := by
  constructor
  · intro h
    simp [OpenAIToAnthropicRequest, h, DefaultMaxTokens]
  · intro h
    simp [OpenAIToAnthropicRequest, h]

/-- Witness for C9 at concrete requests: max tokens 0 becomes 4096, and
max tokens 123 passes through. -/
theorem C9_max_tokens_default_witness :
    (OpenAIToAnthropicRequest ⟨"gpt-4", [], false, 0⟩).maxTokens = 4096
    ∧ (OpenAIToAnthropicRequest ⟨"gpt-4", [], false, 123⟩).maxTokens = 123 :=
  ⟨(C9_max_tokens_default ⟨"gpt-4", [], false, 0⟩).1 rfl,
   (C9_max_tokens_default ⟨"gpt-4", [], false, 123⟩).2 (by decide)⟩

/-- Claim C10: on a valid upsert request, a supplied fallback alias id
that is zero or negative is normalized to null, and a supplied empty
light-model string is normalized to null, before persisting. -/
theorem C10_upsert_normalization (u : Int) (req : ModelAliasRequest)
    (hA : req.alias2 ≠ "") (hT : req.targetModel ≠ "") (hP : 0 < req.providerKeyID) :
    (∀ fid : Int, req.fallbackAliasID = some fid → fid ≤ 0 →
        persistedFallback (upsertModelAlias u req) = some none)
    ∧ (req.lightModel = some "" →
        persistedLightModel (upsertModelAlias u req) = some none) := by
  have hP' : ¬ req.providerKeyID ≤ 0 := by omega
  constructor
  · intro fid hfb hle
    simp [upsertModelAlias, hA, hT, hP', hfb, hle, persistedFallback]
  · intro hlm
    simp [upsertModelAlias, hA, hT, hP', hlm, persistedLightModel]

/-- Witness for C10: a request supplying fallback id 0 and light model ""
persists with both fields null. -/
theorem C10_upsert_normalization_witness :
    persistedFallback (upsertModelAlias 1 ⟨0, "a", "m", 1, some 0, false, 0, some ""⟩)
        = some none
    ∧ persistedLightModel (upsertModelAlias 1 ⟨0, "a", "m", 1, some 0, false, 0, some ""⟩)
        = some none :=
  ⟨(C10_upsert_normalization 1 ⟨0, "a", "m", 1, some 0, false, 0, some ""⟩
      (by decide) (by decide) (by decide)).1 0 rfl (by decide),
   (C10_upsert_normalization 1 ⟨0, "a", "m", 1, some 0, false, 0, some ""⟩
      (by decide) (by decide) (by decide)).2 rfl⟩

/-- Claim C8: effective limit resolution is per axis — a stored user
value of 0 yields the server default for that axis, a non-zero user value
yields that value, a lookup error yields the server defaults directly
(fail-open), and a resolved limit of 0 skips the corresponding check
(daily check never fires, minute check never fires and leaves the counter
map untouched). -/
theorem C8_override_resolution :
    (∀ d : Int, resolveLimit 0 d = d)
    ∧ (∀ uv d : Int, uv ≠ 0 → resolveLimit uv d = uv)
    ∧ (∀ dm dd : Int, getUserLimits dm dd none (Except.error ()) = (dm, dd))
    ∧ (∀ (ml : Int) (dc : Except Unit Int) (st : MinuteBuckets) (u : Int) (m : String),
        (rateLimitCheck ml 0 dc st u m).1 ≠ RateLimitDecision.dailyLimitExceeded
        ∧ (rateLimitCheck ml 0 dc st u m).1 ≠ RateLimitDecision.rateLimitCheckFailed)
    ∧ (∀ (dl : Int) (dc : Except Unit Int) (st : MinuteBuckets) (u : Int) (m : String),
        (rateLimitCheck 0 dl dc st u m).2 = st
        ∧ (rateLimitCheck 0 dl dc st u m).1 ≠ RateLimitDecision.minuteLimitExceeded) := by
  refine ⟨?_, ?_, ?_, ?_, ?_⟩
  · intro d; simp [resolveLimit]
  · intro uv d h; simp [resolveLimit, h]
  · intro dm dd; simp [getUserLimits]
  · intro ml dc st u m
    constructor <;>
      · simp only [rateLimitCheck]
        repeat' split
        all_goals simp_all
  · intro dl dc st u m
    constructor <;>
      · simp only [rateLimitCheck]
        repeat' split
        all_goals simp_all

/-- Witness for C8 at concrete values: user override 0 resolves to the
default 7; user override 5 wins over default 7; an errored lookup returns
the raw defaults (3, 9); a zero daily limit never rejects on the daily
axis; a zero minute limit leaves the counter map untouched. -/
theorem C8_override_resolution_witness :
    resolveLimit 0 7 = 7
    ∧ resolveLimit 5 7 = 5
    ∧ getUserLimits 3 9 none (Except.error ()) = (3, 9)
    ∧ (rateLimitCheck 2 0 (Except.error ()) [] 1 "2024-05-06 07:08").1
        ≠ RateLimitDecision.dailyLimitExceeded
    ∧ (rateLimitCheck 0 2 (Except.ok 0) [] 1 "2024-05-06 07:08").2 = [] :=
  ⟨C8_override_resolution.1 7,
   C8_override_resolution.2.1 5 7 (by decide),
   C8_override_resolution.2.2.1 3 9,
   (C8_override_resolution.2.2.2.1 2 (Except.error ()) [] 1 "2024-05-06 07:08").1,
   (C8_override_resolution.2.2.2.2 2 (Except.ok 0) [] 1 "2024-05-06 07:08").1⟩

/-- Counterexample for C7 as stated: with an effective daily limit of -1
(non-zero) and a persisted daily count of 0 ≥ -1, the code skips the
daily check entirely (it tests `dailyLimit > 0`, not `≠ 0`) and admits
the request rather than rejecting it with the daily-limit status. -/
theorem C7_daily_nonzero_counterexample :
    (-1 : Int) ≠ 0
    ∧ (0 : Int) ≥ -1
    ∧ (rateLimitCheck 0 (-1) (Except.ok 0) [] 1 "2024-05-06 07:08").1
        = RateLimitDecision.admitted := by
  refine ⟨by decide, by decide, ?_⟩
  rfl

/-- Claim C7 (amended: "non-zero" daily limit tightened to "positive",
which is what the code tests): the daily check runs before the minute
check — with a positive daily limit, a persisted daily count at or above
the limit is rejected with the daily-limit status for every minute-limit
value and every minute-counter state, leaving the minute counter
untouched; and an error on the daily count read is a hard rejection
(fail-closed), also leaving the minute counter untouched. -/
theorem C7_daily_check_first (ml dl c : Int) (st : MinuteBuckets) (u : Int)
    (m : String) (hdl : 0 < dl) :
    (c ≥ dl →
        rateLimitCheck ml dl (Except.ok c) st u m
          = (RateLimitDecision.dailyLimitExceeded, st))
    ∧ rateLimitCheck ml dl (Except.error ()) st u m
        = (RateLimitDecision.rateLimitCheckFailed, st) := by
  constructor
  · intro hc
    simp [rateLimitCheck, hdl, hc]
  · simp [rateLimitCheck, hdl]

/-- Witness for C7: daily limit 1, daily count 1, minute limit 1 and an
empty counter map — rejected with the daily status, counter untouched;
an errored daily read is rejected with the check-failed status. -/
theorem C7_daily_check_first_witness :
    rateLimitCheck 1 1 (Except.ok 1) [] 4 "2024-05-06 07:08"
        = (RateLimitDecision.dailyLimitExceeded, [])
    ∧ rateLimitCheck 1 1 (Except.error ()) [] 4 "2024-05-06 07:08"
        = (RateLimitDecision.rateLimitCheckFailed, []) :=
  ⟨(C7_daily_check_first 1 1 1 [] 4 "2024-05-06 07:08" (by decide)).1 (by decide),
   (C7_daily_check_first 1 1 1 [] 4 "2024-05-06 07:08" (by decide)).2⟩

/-- The accumulator form of the character-count loop of `estimateTokens`. -/
theorem foldl_content_length (msgs : List OpenAIMessage) :
    ∀ a : Nat,
      msgs.foldl (fun acc msg => acc + msg.content.length) a
        = a + totalContentChars msgs := by
  induction msgs with
  | nil => intro a; simp [totalContentChars]
  | cons msg rest ih =>
      intro a
      simp only [List.foldl_cons, ih, totalContentChars, List.map_cons, List.sum_cons]
      omega

/-- Claim C4: the model sent upstream on an attempt is the alias's light
model if and only if the alias enables light-model use, carries a
non-empty light model, and the token estimate is strictly below the
threshold (never at equality); and the estimate is the total character
count over all message contents divided by 4 rounded down, with a minimum
of 1 for non-empty input and 0 for empty input. -/
theorem C4_light_model_substitution (rule : ModelAlias) (messages : List OpenAIMessage) :
    attemptModel rule messages =
      (if lightModelSpecCond rule messages then rule.lightModel.getD rule.targetModel
       else rule.targetModel)
    ∧ estimateTokens messages =
        (if totalContentChars messages = 0 then 0
         else max 1 (totalContentChars messages / 4)) := by
  constructor
  · cases hl : rule.lightModel with
    | none => simp [attemptModel, lightModelSpecCond, hl]
    | some lm =>
        simp only [attemptModel, lightModelSpecCond, hl, Option.getD_some]
        by_cases h1 : rule.useLightModel = true
        · by_cases h2 : lm = ""
          · simp [h1, h2]
          · by_cases h3 : (estimateTokens messages : Int) < rule.lightModelThreshold
            · simp [h1, h2, h3]
            · simp [h1, h2, h3]
        · simp [h1]
  · simp only [estimateTokens, foldl_content_length messages 0, Nat.zero_add]
    split_ifs <;> omega

/-- The accumulator form of the text-extraction loop. -/
theorem extractText_go (blocks : List AnthropicBlock) :
    ∀ acc : String,
      blocks.foldl (fun acc b => if b.type = "text" then acc ++ b.text else acc) acc
        = acc ++ specTextContent blocks := by
  induction blocks with
  | nil => intro acc; simp [specTextContent, concatAll, String.append_empty]
  | cons b rest ih =>
      intro acc
      by_cases hb : b.type = "text"
      · simp [specTextContent, concatAll, hb, ih, String.append_assoc]
      · simp [specTextContent, concatAll, hb, ih]

/-- Claim C6: the canonical response built from an Anthropic upstream
response has exactly one choice, whose message is an assistant message
holding the in-order concatenation of the text-typed content segments
(other segments dropped), and its usage total is computed by the
translator as input tokens + output tokens. -/
theorem C6_response_aggregation (resp : AnthropicResponse) :
    (AnthropicToOpenAIResponse resp).choices.map
        (fun c => (c.message.role, c.message.content))
      = [("assistant", specTextContent resp.content)]
    ∧ (AnthropicToOpenAIResponse resp).choices.length = 1
    ∧ (AnthropicToOpenAIResponse resp).usage.totalTokens
        = resp.usage.inputTokens + resp.usage.outputTokens := by
  refine ⟨?_, rfl, rfl⟩
  simp [AnthropicToOpenAIResponse, extractText, extractText_go, String.empty_append]

/-- The accumulator form of the message loop of
`OpenAIToAnthropicRequest`. -/
theorem convert_fold (msgs : List OpenAIMessage) :
    ∀ (s : String) (acc : List AnthropicMessage),
      msgs.foldl convertStep (s, acc)
        = (s ++ sysConcat (systemContents msgs), acc ++ nonSystemAnthropic msgs) := by
  induction msgs with
  | nil =>
      intro s acc
      simp [systemContents, nonSystemAnthropic, sysConcat, String.append_empty]
  | cons msg rest ih =>
      intro s acc
      by_cases hm : msg.role = "system"
      · simp [convertStep, hm, ih, systemContents, nonSystemAnthropic, sysConcat,
          String.append_assoc]
      · simp [convertStep, hm, ih, systemContents, nonSystemAnthropic]

/-- Dropping a whitespace head commutes with trimming. -/
theorem trimSpaceData_cons_ws (c : Char) (l : List Char) (hc : c.isWhitespace = true) :
    trimSpaceData (c :: l) = trimSpaceData l := by
  simp [trimSpaceData, List.dropWhile_cons, hc]

/-- A trailing newline does not change the trimmed character list. -/
theorem trimSpaceData_append_newline (d : List Char) :
    trimSpaceData (d ++ ['\n']) = trimSpaceData d := by
  induction d with
  | nil => decide
  | cons c d ih =>
      by_cases hc : c.isWhitespace
      · rw [List.cons_append, trimSpaceData_cons_ws c _ hc, trimSpaceData_cons_ws c _ hc]
        exact ih
      · simp [trimSpaceData, List.dropWhile_cons, hc, List.reverse_append]

/-- A trailing newline does not change the trimmed string. -/
theorem trimSpace_append_newline (s : String) :
    trimSpace (s ++ "\n") = trimSpace s := by
  unfold trimSpace
  congr 1
  rw [String.data_append]
  exact trimSpaceData_append_newline s.data

/-- Terminator form versus separator form of the system concatenation. -/
theorem sysConcat_join (c : String) (rest : List String) :
    sysConcat (c :: rest) = joinNewline (c :: rest) ++ "\n" := by
  induction rest generalizing c with
  | nil => simp [sysConcat, joinNewline, String.append_empty, String.append_assoc]
  | cons c2 rest ih =>
      rw [show sysConcat (c :: c2 :: rest) = c ++ "\n" ++ sysConcat (c2 :: rest) from rfl,
        ih c2,
        show joinNewline (c :: c2 :: rest) = c ++ "\n" ++ joinNewline (c2 :: rest) from rfl]
      simp only [String.append_assoc]

/-- Counterexample for C5 as stated: the code trims the concatenated
system prompt with `strings.TrimSpace`, which removes *leading*
whitespace too, so for a system message `" S"` the produced system field
is `"S"` while the claimed trailing-only trim yields `" S"`. -/
theorem C5_trailing_trim_counterexample :
    (OpenAIToAnthropicRequest exReqC5).system = "S"
    ∧ specSystemFieldTrailing exReqC5.messages = " S"
    ∧ (OpenAIToAnthropicRequest exReqC5).system
        ≠ specSystemFieldTrailing exReqC5.messages := by
  refine ⟨by decide, by decide, by decide⟩

/-- Claim C5 (amended: trimmed of leading *and* trailing whitespace, as
`strings.TrimSpace` does): translating a canonical request to the
Anthropic wire form yields a system field equal to the fully trimmed
newline-separated concatenation of the system-role contents in order, and
a message list that is exactly the non-system messages in their original
order. -/
theorem C5_system_extraction (req : OpenAIRequest) :
    (OpenAIToAnthropicRequest req).system
        = trimSpace (joinNewline (systemContents req.messages))
    ∧ (OpenAIToAnthropicRequest req).messages = nonSystemAnthropic req.messages := by
  have h := convert_fold req.messages "" []
  constructor
  · simp only [OpenAIToAnthropicRequest, h, String.empty_append]
    cases hsc : systemContents req.messages with
    | nil => simp [sysConcat, joinNewline]
    | cons c rest => rw [sysConcat_join, trimSpace_append_newline]
  · simp only [OpenAIToAnthropicRequest, h, List.nil_append]

/-- String append is left-cancellative. -/
theorem string_append_left_cancel (p a b : String) (h : p ++ a = p ++ b) : a = b := by
  have hd : (p ++ a).data = (p ++ b).data := by rw [h]
  rw [String.data_append, String.data_append] at hd
  exact String.ext (List.append_cancel_left hd)

/-- Different minute strings give different bucket keys for the same
user. -/
theorem minuteKey_ne (u : Int) {m m2 : String} (h : m2 ≠ m) :
    minuteKey u m2 ≠ minuteKey u m := by
  intro he
  exact h (string_append_left_cancel (toString u ++ ":") m2 m he)

/-- Reading a singleton bucket map at its own key. -/
theorem lookupCount_single (k : String) (c : Nat) : lookupCount [(k, c)] k = c := by
  simp [lookupCount, List.find?]

/-- Reading a singleton bucket map at another key. -/
theorem lookupCount_single_ne (k k2 : String) (c : Nat) (h : k ≠ k2) :
    lookupCount [(k, c)] k2 = 0 := by
  have hb : (k == k2) = false := by simpa using h
  simp [lookupCount, List.find?, hb]

/-- One admission check against a singleton bucket map holding the
checked key. -/
theorem minute_step_single (u : Int) (limit : Int) (m : String) (c : Nat) :
    isMinuteLimitExceeded [(minuteKey u m, c)] u limit m
      = if (c : Int) ≥ limit then (true, [(minuteKey u m, c)])
        else (false, [(minuteKey u m, c + 1)]) := by
  by_cases hc : (c : Int) ≥ limit
  · simp [isMinuteLimitExceeded, lookupCount_single, hc]
  · simp [isMinuteLimitExceeded, lookupCount_single, hc, setCount]

/-- One admission check against the empty bucket map. -/
theorem minute_step_empty (u : Int) (limit : Int) (m : String) :
    isMinuteLimitExceeded [] u limit m
      = if (0 : Int) ≥ limit then (true, [])
        else (false, [(minuteKey u m, 1)]) := by
  by_cases hc : (0 : Int) ≥ limit
  · simp [isMinuteLimitExceeded, lookupCount, hc]
  · simp [isMinuteLimitExceeded, lookupCount, hc, setCount]

/-- Closed form of the minute-counter state after `k` same-key requests
from the empty map, at a positive limit `N`: the single key carries
`min k N`. -/
theorem iterateMinute_closed (u : Int) (N : Nat) (m : String) (hN : 0 < N) :
    ∀ k : Nat, iterateMinute u (N : Int) m k []
      = if k = 0 then [] else [(minuteKey u m, min k N)] := by
  intro k
  induction k with
  | zero => rfl
  | succ n ih =>
      rw [show iterateMinute u (N : Int) m (n + 1) []
            = (isMinuteLimitExceeded (iterateMinute u (N : Int) m n []) u (N : Int) m).2
          from rfl, ih]
      by_cases hn : n = 0
      · subst hn
        rw [if_pos rfl, minute_step_empty, if_neg (by omega
              : ¬ (0 : Int) ≥ (N : Int)), if_neg (by omega : ¬ 0 + 1 = 0)]
        have : min (0 + 1) N = 1 := by omega
        rw [this]
      · rw [if_neg hn, minute_step_single, if_neg (by omega : ¬ n + 1 = 0)]
        by_cases hk : n < N
        · rw [if_neg (by push_cast; omega : ¬ ((min n N : Nat) : Int) ≥ (N : Int))]
          have : min n N + 1 = min (n + 1) N := by omega
          rw [this]
        · rw [if_pos (by push_cast; omega : ((min n N : Nat) : Int) ≥ (N : Int))]
          have : min n N = min (n + 1) N := by omega
          rw [this]

/-- Claim C3: for a per-minute limit `N > 0` and a fixed (user, minute)
key, starting from an empty counter map, the request after `k` prior
requests is admitted iff `k < N` (so the first `N` are admitted and the
`(N+1)`-th is the first rejected); each admission increments the key's
counter to `k + 1`; a rejection leaves the map unchanged (no increment);
and a request in a different minute (a different key) is admitted
regardless of the prior minute's count. -/
theorem C3_minute_admission (N k : Nat) (u : Int) (m m2 : String)
    (hN : 0 < N) (hm : m2 ≠ m) :
    ((isMinuteLimitExceeded (iterateMinute u (N : Int) m k []) u (N : Int) m).1 = false
        ↔ k < N)
    ∧ (k < N →
        lookupCount (isMinuteLimitExceeded (iterateMinute u (N : Int) m k []) u (N : Int) m).2
            (minuteKey u m) = k + 1)
    ∧ (N ≤ k →
        isMinuteLimitExceeded (iterateMinute u (N : Int) m k []) u (N : Int) m
          = (true, iterateMinute u (N : Int) m k []))
    ∧ (isMinuteLimitExceeded (iterateMinute u (N : Int) m k []) u (N : Int) m2).1 = false := by
  have hcl := iterateMinute_closed u N m hN k
  by_cases hk0 : k = 0
  · subst hk0
    rw [if_pos rfl] at hcl
    rw [hcl]
    refine ⟨?_, ?_, ?_, ?_⟩
    · rw [minute_step_empty, if_neg (by omega : ¬ (0 : Int) ≥ (N : Int))]
      simpa using hN
    · intro _
      rw [minute_step_empty, if_neg (by omega : ¬ (0 : Int) ≥ (N : Int))]
      exact lookupCount_single _ _
    · intro h; omega
    · rw [minute_step_empty, if_neg (by omega : ¬ (0 : Int) ≥ (N : Int))]
  · rw [if_neg hk0] at hcl
    rw [hcl]
    refine ⟨?_, ?_, ?_, ?_⟩
    · rw [minute_step_single]
      by_cases hk : k < N
      · rw [if_neg (by push_cast; omega : ¬ ((min k N : Nat) : Int) ≥ (N : Int))]
        simpa using hk
      · rw [if_pos (by push_cast; omega : ((min k N : Nat) : Int) ≥ (N : Int))]
        simpa using hk
    · intro hk
      rw [minute_step_single,
        if_neg (by push_cast; omega : ¬ ((min k N : Nat) : Int) ≥ (N : Int))]
      have : min k N + 1 = k + 1 := by omega
      rw [lookupCount_single, this]
    · intro hk
      rw [minute_step_single,
        if_pos (by push_cast; omega : ((min k N : Nat) : Int) ≥ (N : Int))]
    · have hne : minuteKey u m ≠ minuteKey u m2 := (minuteKey_ne u hm).symm
      have hlk : lookupCount [(minuteKey u m, min k N)] (minuteKey u m2) = 0 :=
        lookupCount_single_ne _ _ _ hne
      simp only [isMinuteLimitExceeded, hlk]
      rw [if_neg (by omega : ¬ ((0 : Nat) : Int) ≥ (N : Int))]

/-- Witness for C3 at `N = 2`, user 7, minutes `"2024-01-02 03:04"` and
`"2024-01-02 03:05"`, after `k = 2` prior requests: the third request in
the same minute is rejected without incrementing, while a request in the
next minute is admitted. -/
theorem C3_minute_admission_witness :
    ¬ ((isMinuteLimitExceeded (iterateMinute 7 2 "2024-01-02 03:04" 2 []) 7 2
          "2024-01-02 03:04").1 = false)
    ∧ isMinuteLimitExceeded (iterateMinute 7 2 "2024-01-02 03:04" 2 []) 7 2
          "2024-01-02 03:04"
        = (true, iterateMinute 7 2 "2024-01-02 03:04" 2 [])
    ∧ (isMinuteLimitExceeded (iterateMinute 7 2 "2024-01-02 03:04" 2 []) 7 2
          "2024-01-02 03:05").1 = false := by
  have h := C3_minute_admission 2 2 7 "2024-01-02 03:04" "2024-01-02 03:05"
    (by decide) (by decide)
  exact ⟨fun hf => absurd (h.1.mp hf) (by decide), h.2.2.1 (by decide), h.2.2.2⟩

/-- The loop can only exit through its exhaustion branch after at least
one fallback hop, and every hop records the upstream error
(`lastErr = err` on every `continue`), so the 508 outcome is unreachable
whenever the error flag is set or any fuel remains. -/
theorem proxyLoop_no_508 (env : ProxyEnv) (u : Int) (req : OpenAIRequest) :
    ∀ (fuel : Nat) (m : String) (b : Bool) (a : Nat), (b = true ∨ 1 ≤ fuel) →
      (proxyLoop env u req fuel m b a).1 ≠ ProxyOutcome.maxFallbackDepthReached := by
  intro fuel
  induction fuel with
  | zero =>
      intro m b a hb
      rcases hb with hb | hb
      · subst hb; simp [proxyLoop]
      · omega
  | succ n ih =>
      intro m b a _
      simp only [proxyLoop]
      repeat' split
      all_goals first
        | exact ih _ true _ (Or.inl rfl)
        | (intro h; exact ProxyOutcome.noConfusion h)

/-- In an environment where every alias resolves, every provider key
resolves to a supported type, every alias's fallback reference resolves
to a name, and every upstream send fails, the loop always exits with
`allFallbacksFailed`. -/
theorem proxyLoop_allfail (env : ProxyEnv) (u : Int) (req : OpenAIRequest)
    (hA : ∀ name, ∃ r, env.getModelAlias name = some r)
    (hK : ∀ name r, env.getModelAlias name = some r →
        ∃ t, env.getProviderKey r.providerKeyID = some t ∧ supportedProvider t = true)
    (hS : ∀ t k q, env.send t k q = none)
    (hF : ∀ name r, env.getModelAlias name = some r →
        ∃ fid fname, r.fallbackAliasID = some fid ∧ env.getModelAliasByID fid = some fname) :
    ∀ (fuel : Nat) (m : String) (b : Bool) (a : Nat), (b = true ∨ 1 ≤ fuel) →
      (proxyLoop env u req fuel m b a).1 = ProxyOutcome.allFallbacksFailed := by
  intro fuel
  induction fuel with
  | zero =>
      intro m b a hb
      rcases hb with hb | hb
      · subst hb; simp [proxyLoop]
      · omega
  | succ n ih =>
      intro m b a _
      obtain ⟨r, hr⟩ := hA m
      obtain ⟨t, ht, hts⟩ := hK m r hr
      obtain ⟨fid, fname, hfid, hfname⟩ := hF m r hr
      simp only [proxyLoop, hr, ht, hts, if_true, hS, hfid, hfname]
      exact ih fname true (a + 1) (Or.inl rfl)

/-- The loop reports `allFallbacksFailed` only if the error flag was
already set or some upstream send actually failed. -/
theorem proxyLoop_502_send_failure (env : ProxyEnv) (u : Int) (req : OpenAIRequest) :
    ∀ (fuel : Nat) (m : String) (b : Bool) (a : Nat),
      (proxyLoop env u req fuel m b a).1 = ProxyOutcome.allFallbacksFailed →
        b = true ∨ ∃ t k q, env.send t k q = none := by
  intro fuel
  induction fuel with
  | zero =>
      intro m b a h
      cases b
      · simp [proxyLoop] at h
      · exact Or.inl rfl
  | succ n ih =>
      intro m b a
      simp only [proxyLoop]
      repeat' split
      all_goals intro h
      all_goals first
        | exact ProxyOutcome.noConfusion h
        | exact Or.inr ⟨_, _, _, by assumption⟩

/-- Counterexample for C1 as stated: in `exEnvC1` every attempted alias
has a (resolvable) fallback reference and every upstream send fails, yet
after exhausting the fallback depth (2 attempts) the orchestrator
terminates with `AllFallbacksFailed` (HTTP 502) — not with
`MaxFallbackDepthReached` (HTTP 508) — because each fallback hop records
the upstream error in `lastErr`. -/
theorem C1_fallback_counterexample :
    proxyHandler exEnvC1 0 exReqC1 = (ProxyOutcome.allFallbacksFailed, 2)
    ∧ ProxyOutcome.allFallbacksFailed ≠ ProxyOutcome.maxFallbackDepthReached :=
  ⟨by decide, by decide⟩

/-- Claim C1 (amended: the terminal outcome of an all-fallbacks-all-fail
chain is `AllFallbacksFailed`, and `MaxFallbackDepthReached` is
unreachable): for every request whose alias chain is such that every
attempted alias has a resolvable fallback reference and every upstream
send fails, the orchestrator terminates after exhausting the fallback
depth with `AllFallbacksFailed` (HTTP 502), since every failed attempt
records an upstream error; and no environment whatsoever can make a
request terminate with `MaxFallbackDepthReached` (HTTP 508) — that branch
of the code is dead.  `AllFallbacksFailed` remains terminal only when at
least one attempt produced an upstream error (here, all did). -/
theorem C1_fallback_chain_terminal (env : ProxyEnv) (u : Int) (req : OpenAIRequest)
    (hA : ∀ name, ∃ r, env.getModelAlias name = some r)
    (hK : ∀ name r, env.getModelAlias name = some r →
        ∃ t, env.getProviderKey r.providerKeyID = some t ∧ supportedProvider t = true)
    (hS : ∀ t k q, env.send t k q = none)
    (hF : ∀ name r, env.getModelAlias name = some r →
        ∃ fid fname, r.fallbackAliasID = some fid ∧ env.getModelAliasByID fid = some fname) :
    (proxyHandler env u req).1 = ProxyOutcome.allFallbacksFailed
    ∧ (∀ (env2 : ProxyEnv) (u2 : Int) (req2 : OpenAIRequest),
        (proxyHandler env2 u2 req2).1 ≠ ProxyOutcome.maxFallbackDepthReached)
    ∧ (∀ (env2 : ProxyEnv) (u2 : Int) (req2 : OpenAIRequest),
        (proxyHandler env2 u2 req2).1 = ProxyOutcome.allFallbacksFailed →
          ∃ t k q, env2.send t k q = none) := by
  refine ⟨?_, ?_, ?_⟩
  · exact proxyLoop_allfail env u req hA hK hS hF 2 req.model false 0 (Or.inr (by omega))
  · intro env2 u2 req2
    exact proxyLoop_no_508 env2 u2 req2 2 req2.model false 0 (Or.inr (by omega))
  · intro env2 u2 req2 h
    rcases proxyLoop_502_send_failure env2 u2 req2 2 req2.model false 0 h with hb | hs
    · exact absurd hb (by simp)
    · exact hs

/-- Witness for C1 at the concrete self-falling-back environment: the
outcome is `AllFallbacksFailed` and not `MaxFallbackDepthReached`. -/
theorem C1_fallback_chain_terminal_witness :
    (proxyHandler exEnvC1 0 exReqC1).1 = ProxyOutcome.allFallbacksFailed
    ∧ (proxyHandler exEnvC1 0 exReqC1).1 ≠ ProxyOutcome.maxFallbackDepthReached := by
  have h := C1_fallback_chain_terminal exEnvC1 0 exReqC1
    (fun _ => ⟨exRule, rfl⟩)
    (fun _ _ _ => ⟨"anthropic", rfl, by decide⟩)
    (fun _ _ _ => rfl)
    (fun name r hr => by
      have hr2 : (some exRule : Option ModelAlias) = some r := hr
      obtain rfl := Option.some.inj hr2
      exact ⟨1, "alias-a", rfl, rfl⟩)
  exact ⟨h.1, h.2.1 exEnvC1 0 exReqC1⟩

end TokenTracer
